import Mathlib

/-!
Shallow embedding of the DevMarket marketplace application (Django):
the catalog (`catalog/models.py`, `catalog/views.py`), the shopping cart
(`cart/models.py`, `cart/views.py`), orders (`orders/models.py`) and the
checkout / payment flow (`checkout/views.py`).

Monetary amounts (`DecimalField(decimal_places=2)`) are modelled as
integer cents.  Database rows are lists of structures; primary keys are
`Nat`.  View functions become pure state transformers: the incoming HTTP
request data and the answers of the external payment provider (Stripe)
are explicit parameters.
-/

namespace DevMarket

/-- Source: `Product.STATUS_CHOICES` in `catalog/models.py`. -/
inductive PStatus where
  | draft | pendingReview | active | inactive | rejected
deriving DecidableEq, Repr

/-- Source: `Order.STATUS_CHOICES` in `orders/models.py`. -/
inductive OStatus where
  | pending | completed | failed | refunded
deriving DecidableEq, Repr

/-- A row of `catalog.Product` (the fields the checkout / cart / catalog
views read or write). -/
structure Product where
  id : Nat
  slug : String
  title : String
  price : Int
  status : PStatus
  is_active : Bool
  purchase_count : Nat
  download_count : Nat
deriving DecidableEq, Repr

/-- Source: `Product.increment_purchase_count` (`catalog/models.py`). -/
def Product.increment_purchase_count (p : Product) : Product :=
  { p with purchase_count := p.purchase_count + 1 }

/-- A row of `cart.CartItem`: the `(cart, product)` pair with the price
captured at add time (`cart/models.py`). The owning cart is implicit
(items live inside their `Cart` value, mirroring the `related_name='items'`
reverse accessor). -/
structure CartItem where
  productId : Nat
  price : Int
deriving DecidableEq, Repr

/-- A row of `cart.Cart` together with its items (`cart/models.py`). -/
structure Cart where
  userId : Nat
  items : List CartItem
deriving DecidableEq, Repr

/-- Source: `Cart.total_price`, a fold of `item.get_total_price()` (which returns the
captured `price`) starting from `Decimal('0.00')`. -/
def Cart.total_price (c : Cart) : Int :=
  c.items.foldl (fun total it => total + it.price) 0

/-- Source: `Cart.is_empty`, `self.items.count() == 0`. -/
def Cart.is_empty (c : Cart) : Bool :=
  c.items.length == 0

/-- Source: `Cart.add_product`, i.e. `CartItem.objects.get_or_create(cart=self,
product=product, defaults={'price': product.price})` — creates a line with
the product's current price only when no line for the product exists. -/
def Cart.add_product (c : Cart) (p : Product) : Cart :=
  if c.items.any (fun it => it.productId == p.id) then c
  else { c with items := c.items ++ [{ productId := p.id, price := p.price }] }

/-- Source: `Cart.remove_product`, deletes the line for the product if present;
returns whether a line was deleted. -/
def Cart.remove_product (c : Cart) (productId : Nat) : Cart × Bool :=
  if c.items.any (fun it => it.productId == productId) then
    ({ c with items := c.items.filter (fun it => !(it.productId == productId)) }, true)
  else (c, false)

/-- Source: `Cart.clear`, `self.items.all().delete()`. -/
def Cart.clear (c : Cart) : Cart :=
  { c with items := [] }

/-- A row of `orders.OrderItem` (`orders/models.py`): live FK `product`
plus the frozen snapshot fields. -/
structure OrderItem where
  orderId : Nat
  productId : Nat
  price : Int
  product_title : String
  product_slug : String
deriving DecidableEq, Repr

/-- A row of `orders.Order` (`orders/models.py`). `completed_at` is a
timestamp (`none` until completion). -/
structure Order where
  id : Nat
  userId : Nat
  email : String
  total_amount : Int
  status : OStatus
  stripe_payment_intent_id : Option String
  stripe_session_id : Option String
  completed_at : Option Nat
deriving DecidableEq, Repr

/-- Source: `Order.mark_completed`, sets status to `completed`, stamps
`completed_at := timezone.now()` and saves. -/
def Order.mark_completed (o : Order) (now : Nat) : Order :=
  { o with status := OStatus.completed, completed_at := some now }

/-- The order row as stored by the two success handlers:
`order.mark_completed()` followed by `order.stripe_payment_intent_id = ...`
and `order.save()`. -/
def completedWith (o : Order) (payment_intent : Option String) (now : Nat) : Order :=
  { o with
    status := OStatus.completed,
    completed_at := some now,
    stripe_payment_intent_id := payment_intent }

/-- The persistent store: the tables the cart/checkout/catalog views
touch. -/
structure State where
  products : List Product
  carts : List Cart
  orders : List Order
  orderItems : List OrderItem
deriving DecidableEq, Repr

/-- Source: `Cart.objects.filter(user=u).first()` / `get_object_or_404(Cart, user=u)`. -/
def State.cartOf (st : State) (userId : Nat) : Option Cart :=
  st.carts.find? (fun c => c.userId == userId)

/-- Save one order row back (`order.save()`), matching on primary key. -/
def State.updateOrder (st : State) (o : Order) : State :=
  { st with orders := st.orders.map (fun x => if x.id == o.id then o else x) }

/-- Save one cart row back, matching on its owning user (one-to-one). -/
def State.updateCart (st : State) (c : Cart) : State :=
  { st with carts := st.carts.map (fun x => if x.userId == c.userId then c else x) }

/-- Save one product row back (`product.save()`), matching on primary key. -/
def State.updateProduct (st : State) (p : Product) : State :=
  { st with products := st.products.map (fun x => if x.id == p.id then p else x) }

/-- Source: `order.items.all()` via the `related_name='items'` reverse FK. -/
def State.itemsOfOrder (st : State) (orderId : Nat) : List OrderItem :=
  st.orderItems.filter (fun it => it.orderId == orderId)

/-- Source: the `Product.objects.get(id=...)` lookup used through `item.product`. -/
def State.productById (st : State) (productId : Nat) : Option Product :=
  st.products.find? (fun p => p.id == productId)

/-- One step of the loop `for item in order.items.all():
item.product.increment_purchase_count()` in `checkout_success`. -/
def State.incrementPurchase (st : State) (productId : Nat) : State :=
  { st with products := st.products.map (fun p =>
      if p.id == productId then p.increment_purchase_count else p) }

/-- The whole purchase-counter loop of `checkout_success`. -/
def State.incrementPurchases (st : State) (items : List OrderItem) : State :=
  items.foldl (fun acc it => acc.incrementPurchase it.productId) st

/-- Source: `Cart.objects.filter(user=...).first()` followed by `cart.clear()`
in `checkout_success` (no-op when the user has no cart row). -/
def State.clearCartOf (st : State) (userId : Nat) : State :=
  { st with carts := st.carts.map (fun c =>
      if c.userId == userId then c.clear else c) }

/-! ### `checkout/views.py` -/

/-- Source: `Order.objects.create(user=..., email=..., total_amount=...,
status='pending')` as called by `create_checkout_session` and `buy_now`:
a fresh pending order with no Stripe ids and no completion time. -/
def orderCreate (oid uid : Nat) (email : String) (total : Int) : Order :=
  { id := oid, userId := uid, email := email, total_amount := total,
    status := OStatus.pending, stripe_payment_intent_id := none,
    stripe_session_id := none, completed_at := none }

/-- Source: the `OrderItem.objects.create(order=order, product=cart_item.product,
price=cart_item.price, product_title=..., product_slug=...)` loop body of
`create_checkout_session`: snapshot of title/slug from the live product,
price from the cart line. -/
def snapshotItem (st : State) (oid : Nat) (ci : CartItem) : OrderItem :=
  { orderId := oid, productId := ci.productId, price := ci.price,
    product_title := ((st.productById ci.productId).map Product.title).getD "",
    product_slug := ((st.productById ci.productId).map Product.slug).getD "" }

/-- Source: the single `OrderItem.objects.create(...)` of `buy_now`. -/
def buyNowItem (oid : Nat) (p : Product) : OrderItem :=
  { orderId := oid, productId := p.id, price := p.price,
    product_title := p.title, product_slug := p.slug }

/-- Responses of `create_checkout_session` (JSON payload / HTTP status). -/
inductive SessionResponse where
  | checkoutUrl (url : String)   -- 200, `{'checkout_url': ...}`
  | cartEmpty                    -- 400, `{'error': 'Cart is empty'}`
  | failed                       -- 500, `{'error': 'Failed to create checkout session'}`
deriving DecidableEq, Repr

/-- The external `stripe.checkout.Session.create` call: `none` models the
call raising, `some (id, url)` a created session. -/
def StripeSession := Option (String × String)

/-- Source: `create_checkout_session` (`checkout/views.py` lines 44–107).  The
whole body runs inside one `try`: the `Order` row and its `OrderItem`
rows are created (and committed — there is no enclosing transaction)
*before* the Stripe call, so when `stripe.checkout.Session.create`
raises, the `except` branch returns the generic 500 answer while the
pending order and its items stay in the database; only the session id is
never stored.  The user's cart is read but never written. -/
def create_checkout_session (st : State) (userId : Nat) (email : String)
    (freshOrderId : Nat) (stripeResult : StripeSession) : State × SessionResponse :=
  match st.cartOf userId with
  | none => (st, SessionResponse.failed)   -- Http404 raised inside try ⇒ caught ⇒ 500
  | some cart =>
    if cart.is_empty then (st, SessionResponse.cartEmpty)
    else
      let order : Order := orderCreate freshOrderId userId email cart.total_price
      let newItems : List OrderItem := cart.items.map (snapshotItem st freshOrderId)
      let st1 : State :=
        { st with orders := st.orders ++ [order],
                  orderItems := st.orderItems ++ newItems }
      match stripeResult with
      | some (sessId, url) =>
        (st1.updateOrder { order with stripe_session_id := some sessId },
         SessionResponse.checkoutUrl url)
      | none => (st1, SessionResponse.failed)

/-- Source: `checkout_success` (`checkout/views.py` lines 110–155).
`session_id` comes from the query string; `payment_status` and
`payment_intent` are the fields of the Stripe session retrieved for it.
The order is fetched by `get_object_or_404(Order,
stripe_session_id=session_id, user=request.user)`; any miss raises and
is caught by the surrounding `except`, leaving the state untouched.
On `paid` + `pending`: `mark_completed`, store the payment intent, clear
the user's cart, and increment each order item's product purchase
counter.  On `paid` + not pending ("already processed") and on any other
payment status, no state is written. -/
def checkout_success (st : State) (userId : Nat) (session_id : Option String)
    (payment_status : String) (payment_intent : Option String) (now : Nat) : State :=
  match session_id with
  | none => st
  | some sid =>
    match st.orders.find? (fun o =>
        o.stripe_session_id == some sid && o.userId == userId) with
    | none => st
    | some order =>
      if payment_status == "paid" && order.status == OStatus.pending then
        let order' := { order.mark_completed now with
                        stripe_payment_intent_id := payment_intent }
        let st1 := st.updateOrder order'
        let st2 := st1.clearCartOf userId
        st2.incrementPurchases (st2.itemsOfOrder order.id)
      else st

/-- The Stripe webhook events `stripe_webhook` dispatches on (after
signature verification, which is outside the model: a bad signature or
payload returns 400 with no state change). -/
inductive StripeEvent where
  | sessionCompleted (session_id : String) (payment_intent : Option String)
  | paymentFailed (payment_intent_id : String)
  | other
deriving DecidableEq, Repr

/-- Source: `stripe_webhook` (`checkout/views.py` lines 164–208).
`checkout.session.completed`: look the order up by session id; if it is
still `pending`, `mark_completed` and store the payment intent — the
handler clears no cart and touches no purchase counter.
`payment_intent.payment_failed`: look the order up by payment intent id
and set `status = 'failed'` unconditionally (no check of the current
status).  A missing order is logged and dropped; other event types are
ignored. -/
def stripe_webhook (st : State) (ev : StripeEvent) (now : Nat) : State :=
  match ev with
  | StripeEvent.sessionCompleted sid payment_intent =>
    match st.orders.find? (fun o => o.stripe_session_id == some sid) with
    | none => st
    | some order =>
      if order.status == OStatus.pending then
        st.updateOrder { order.mark_completed now with
                         stripe_payment_intent_id := payment_intent }
      else st
  | StripeEvent.paymentFailed piid =>
    match st.orders.find? (fun o => o.stripe_payment_intent_id == some piid) with
    | none => st
    | some order => st.updateOrder { order with status := OStatus.failed }
  | StripeEvent.other => st

/-- Source: the lookup of `product_detail` (`catalog/views.py` lines 8–19):
`get_object_or_404(Product..., slug=slug, is_active=True, status='active')`.
Returns `none` for the 404 case. -/
def product_detail (st : State) (slug : String) : Option Product :=
  st.products.find? (fun p =>
    p.slug == slug && p.is_active && p.status == PStatus.active)

/-- Source: the lookup shared by `add_to_cart` (`cart/views.py` line 31) and
`buy_now` (`checkout/views.py` line 215):
`get_object_or_404(Product, slug=product_slug, is_active=True)` — only
`is_active` is filtered on, `status` is not. -/
def purchasable_lookup (st : State) (slug : String) : Option Product :=
  st.products.find? (fun p => p.slug == slug && p.is_active)

/-- Source: `buy_now` (`checkout/views.py` lines 211–270), POST branch.  The
product is fetched by `get_object_or_404(Product, slug=..., is_active=True)`
— only `is_active` is required, not `status='active'`.  The order and its
single item are created *before* the `try` around the Stripe call, so a
Stripe failure leaves them in the database and redirects back to the
product page with an error message. -/
def buy_now (st : State) (userId : Nat) (email : String) (product_slug : String)
    (freshOrderId : Nat) (stripeResult : StripeSession) : State × Bool :=
  match purchasable_lookup st product_slug with
  | none => (st, false)                     -- Http404
  | some product =>
    let order : Order := orderCreate freshOrderId userId email product.price
    let item : OrderItem := buyNowItem freshOrderId product
    let st1 : State :=
      { st with orders := st.orders ++ [order], orderItems := st.orderItems ++ [item] }
    match stripeResult with
    | some (sessId, _) =>
      (st1.updateOrder { order with stripe_session_id := some sessId }, true)
    | none => (st1, false)

/-! ### `cart/views.py` -/

/-- Source: `add_to_cart` (`cart/views.py` lines 27–56).  Looks the product
up with `is_active=True` only; `hasattr(request.user, 'purchased_products')`
is false (no such relation exists anywhere in the project), so that guard
never fires; `Cart.objects.get_or_create(user=...)` materialises the cart
row; if the product already has a line only a message is emitted, else
`cart.add_product(product)`.  The returned `Bool` is whether the product
was located (`false` models the 404). -/
def add_to_cart (st : State) (userId : Nat) (slug : String) : State × Bool :=
  match purchasable_lookup st slug with
  | none => (st, false)
  | some product =>
    let cart : Cart := (st.cartOf userId).getD { userId := userId, items := [] }
    let st1 : State :=
      if (st.cartOf userId).isSome then st
      else { st with carts := st.carts ++ [cart] }
    if cart.items.any (fun it => it.productId == product.id) then (st1, true)
    else (st1.updateCart (cart.add_product product), true)

/-! ### `catalog/models.py`: the category tree -/

/-- A row of `catalog.Category`: `parent` is the nullable self FK. -/
structure Category where
  id : Nat
  name : String
  slug : String
  parent : Option Nat
deriving DecidableEq, Repr

/-- Source: the `related_name='children'` reverse accessor
`self.children.all()`: all categories whose `parent` FK points at `id`. -/
def childrenOf (cats : List Category) (id : Nat) : List Category :=
  cats.filter (fun c => c.parent == some id)

/-- Source: `Category.get_descendants` (`catalog/models.py` lines 78–84):
for each child, append the child and then its own descendants.  The Python
recursion is unbounded; the embedding makes the recursion depth explicit
as `fuel`, so that running out of fuel models non-termination: fuel `0`
cuts the traversal short, while a fuel no smaller than the forest height
reproduces the full (terminating) run. -/
def get_descendants (cats : List Category) : Nat → Category → List Category
  | 0, _ => []
  | fuel + 1, c =>
    (childrenOf cats c.id).flatMap (fun child => child :: get_descendants cats fuel child)

/-- Source: `Category.save` (`catalog/models.py` lines 56–60): auto-fill
the slug from the name when blank, then persist.  `slugify` is the
external `django.utils.text.slugify`.  No validation of the `parent` link
is performed. -/
def Category.save (slugify : String → String) (c : Category) : Category :=
  if c.slug == "" then { c with slug := slugify c.name } else c

/-- Deletion of a `Product` row.  Per the model declarations, every FK to
`Product` is `on_delete=models.CASCADE`: `OrderItem.product`
(`orders/models.py` line 56) and `CartItem.product` (`cart/models.py`
line 60), so deleting a product also deletes every order item and cart
item that references it. -/
def State.deleteProduct (st : State) (productId : Nat) : State :=
  { st with
    products := st.products.filter (fun p => !(p.id == productId)),
    orderItems := st.orderItems.filter (fun it => !(it.productId == productId)),
    carts := st.carts.map (fun c =>
      { c with items := c.items.filter (fun it => !(it.productId == productId)) }) }

/-- Acyclicity of the category forest, stated through a rank function:
every row's parent has a strictly smaller rank and ranks are bounded by
the table size.  Such a function exists exactly when the finite parent
graph has no cycle. -/
def AcyclicForest (cats : List Category) : Prop :=
  ∃ rank : Nat → Nat,
    (∀ c ∈ cats, rank c.id < cats.length) ∧
    (∀ c ∈ cats, ∀ p, c.parent = some p → rank p < rank c.id)

/-- Strict-descendant relation of the category forest: `Descendant cats a d`
holds when `d` is reachable from the node with id `a` by following one or
more child edges. -/
inductive Descendant (cats : List Category) : Nat → Category → Prop
  | child {a : Nat} {d : Category} : d ∈ cats → d.parent = some a → Descendant cats a d
  | step {a : Nat} {ch d : Category} : ch ∈ cats → ch.parent = some a →
      Descendant cats ch.id d → Descendant cats a d

/-- Fixture: an active, purchasable product. -/
def tplActive : Product :=
  { id := 3, slug := "tpl", title := "Template", price := 1000,
    status := PStatus.active, is_active := true,
    purchase_count := 0, download_count := 0 }

/-- Fixture: the same product stored as a draft, with `is_active` still at
its default `True`. -/
def tplDraft : Product := { tplActive with status := PStatus.draft }

/-- Fixture: user 1's cart holding the product at its captured price. -/
def cartWithTpl : Cart :=
  { userId := 1, items := [{ productId := 3, price := 1000 }] }

/-- Fixture: store with the active product and the one-line cart. -/
def stShop : State :=
  { products := [tplActive], carts := [cartWithTpl], orders := [], orderItems := [] }

/-- Fixture: store with the draft product and an empty cart for user 1. -/
def stDraftShop : State :=
  { products := [tplDraft], carts := [{ userId := 1, items := [] }],
    orders := [], orderItems := [] }

/-- Fixture: a pending order for user 1 correlated to Stripe session
`cs_1`, with one order item for the product. -/
def pendingOrder : Order :=
  { id := 20, userId := 1, email := "b@x.com", total_amount := 1000,
    status := OStatus.pending, stripe_payment_intent_id := none,
    stripe_session_id := some "cs_1", completed_at := none }

/-- Fixture: the order item of `pendingOrder`, snapshotting the product. -/
def tplOrderItem : OrderItem :=
  { orderId := 20, productId := 3, price := 1000,
    product_title := "Template", product_slug := "tpl" }

/-- Fixture: store holding the product, the user's cart, the pending
order, and its item — the situation right after checkout initiation. -/
def stCheckout : State :=
  { products := [tplActive], carts := [cartWithTpl],
    orders := [pendingOrder], orderItems := [tplOrderItem] }

/-- The two entry points through which a payment success reaches the
application: the synchronous success redirect (`checkout_success`) and
the asynchronous `checkout.session.completed` webhook (`stripe_webhook`). -/
inductive Delivery where
  | redirect
  | webhook
deriving DecidableEq, Repr

/-- Deliver one payment-success notification for Stripe session `sid`
through the given entry point. -/
def deliverSuccess (d : Delivery) (st : State) (uid : Nat) (sid : String)
    (payment_intent : Option String) (now : Nat) : State :=
  match d with
  | Delivery.redirect => checkout_success st uid (some sid) "paid" payment_intent now
  | Delivery.webhook =>
    stripe_webhook st (StripeEvent.sessionCompleted sid payment_intent) now

/-- Fixture: a three-level category chain, ids equal to their depth. -/
def catRoot : Category :=
  { id := 0, name := "Design", slug := "design", parent := none }

/-- Fixture: middle category, child of the root. -/
def catMid : Category :=
  { id := 1, name := "Web Templates", slug := "web-templates", parent := some 0 }

/-- Fixture: leaf category, grandchild of the root. -/
def catLeaf : Category :=
  { id := 2, name := "Landing Pages", slug := "landing-pages", parent := some 1 }

/-- Fixture: the category table holding the three-level chain. -/
def catForest : List Category := [catRoot, catMid, catLeaf]

/-- Fixture: a category whose parent is itself — the degenerate row that
`Category.save` accepts without complaint. -/
def catSelfLoop : Category :=
  { id := 9, name := "Loop", slug := "", parent := some 9 }

/-! ## Helper lemmas -/

theorem foldl_add_price (l : List CartItem) (a : Int) :
    l.foldl (fun total it => total + it.price) a = a + (l.map CartItem.price).sum := by
  induction l generalizing a with
  | nil => simp
  | cons x xs ih => simp [ih, add_assoc]

theorem total_price_eq_sum (c : Cart) :
    c.total_price = (c.items.map CartItem.price).sum := by
  simpa using foldl_add_price c.items 0

theorem find?_stronger {α : Type} {l : List α} {p q : α → Bool} {a : α}
    (h : l.find? p = some a) (hqa : q a = true)
    (himp : ∀ x, q x = true → p x = true) :
    l.find? q = some a := by
  induction l with
  | nil => simp at h
  | cons x xs ih =>
    by_cases hpx : p x = true
    · rw [List.find?_cons_of_pos _ hpx] at h
      have hx : x = a := by injection h
      subst hx
      exact List.find?_cons_of_pos _ hqa
    · have hqx : ¬ q x = true := fun hqx => hpx (himp x hqx)
      rw [List.find?_cons_of_neg _ hpx] at h
      rw [List.find?_cons_of_neg _ hqx]
      exact ih h

theorem find?_updateOrder_eq {l : List Order} {p : Order → Bool} {a : Order}
    (a' : Order) (h : l.find? p = some a) (hid : a'.id = a.id) (ha' : p a' = true) :
    (l.map (fun x => if x.id == a'.id then a' else x)).find? p = some a' := by
  induction l with
  | nil => simp at h
  | cons x xs ih =>
    by_cases hpx : p x = true
    · rw [List.find?_cons_of_pos _ hpx] at h
      have hx : x = a := by injection h
      subst hx
      simp only [List.map_cons]
      rw [if_pos (by simp [hid])]
      exact List.find?_cons_of_pos _ ha'
    · simp only [List.map_cons]
      rw [List.find?_cons_of_neg _ hpx] at h
      by_cases hxid : (x.id == a'.id) = true
      · rw [if_pos hxid]
        exact List.find?_cons_of_pos _ ha'
      · rw [if_neg hxid]
        rw [List.find?_cons_of_neg _ hpx]
        exact ih h

theorem incrementPurchases_orders (st : State) (items : List OrderItem) :
    (st.incrementPurchases items).orders = st.orders := by
  induction items generalizing st with
  | nil => rfl
  | cons it rest ih => exact ih (st.incrementPurchase it.productId)

theorem incrementPurchases_carts (st : State) (items : List OrderItem) :
    (st.incrementPurchases items).carts = st.carts := by
  induction items generalizing st with
  | nil => rfl
  | cons it rest ih => exact ih (st.incrementPurchase it.productId)

theorem incrementPurchases_orderItems (st : State) (items : List OrderItem) :
    (st.incrementPurchases items).orderItems = st.orderItems := by
  induction items generalizing st with
  | nil => rfl
  | cons it rest ih => exact ih (st.incrementPurchase it.productId)

theorem incrementPurchases_products (st : State) (items : List OrderItem) :
    (st.incrementPurchases items).products
      = st.products.map (fun p =>
          { p with purchase_count :=
              p.purchase_count + items.countP (fun it => it.productId == p.id) }) := by
  induction items generalizing st with
  | nil => exact (List.map_id st.products).symm
  | cons it rest ih =>
    have h1 : State.incrementPurchases st (it :: rest)
        = State.incrementPurchases (st.incrementPurchase it.productId) rest := rfl
    rw [h1, ih]
    show (st.products.map (fun p =>
        if p.id == it.productId then p.increment_purchase_count else p)).map _ = _
    rw [List.map_map]
    apply List.map_congr_left
    intro p _
    by_cases hid : (p.id == it.productId) = true
    · have hid' : (it.productId == p.id) = true := by
        rw [beq_iff_eq] at hid ⊢
        exact hid.symm
      simp only [Function.comp, if_pos hid, Product.increment_purchase_count,
        List.countP_cons, hid', if_true, Product.mk.injEq, true_and, and_true]
      omega
    · have hid' : ¬ (it.productId == p.id) = true := by
        rw [beq_iff_eq] at hid ⊢
        exact fun e => hid e.symm
      simp only [Function.comp, if_neg hid, List.countP_cons, if_neg hid',
        Nat.add_zero]

theorem find?_map_clear (l : List Cart) (uid : Nat) :
    (l.map (fun c => if c.userId == uid then c.clear else c)).find?
        (fun c => c.userId == uid)
      = (l.find? (fun c => c.userId == uid)).map Cart.clear := by
  induction l with
  | nil => rfl
  | cons x xs ih =>
    by_cases hx : (x.userId == uid) = true
    · simp only [List.map_cons, if_pos hx]
      rw [@List.find?_cons_of_pos _ (fun c => c.userId == uid) x.clear _ hx,
        @List.find?_cons_of_pos _ (fun c => c.userId == uid) x _ hx]
      rfl
    · simp only [List.map_cons, if_neg hx]
      rw [@List.find?_cons_of_neg _ (fun c => c.userId == uid) x _ hx,
        @List.find?_cons_of_neg _ (fun c => c.userId == uid) x _ hx]
      exact ih

theorem checkout_success_paid_unfold (st : State) (uid : Nat) (sid : String)
    (payment_intent : Option String) (now : Nat) :
    checkout_success st uid (some sid) "paid" payment_intent now
      = (match st.orders.find? (fun o =>
            o.stripe_session_id == some sid && o.userId == uid) with
         | none => st
         | some order =>
           if ("paid" : String) == "paid" && order.status == OStatus.pending then
             ((st.updateOrder { order.mark_completed now with
                  stripe_payment_intent_id := payment_intent }).clearCartOf
                uid).incrementPurchases
               (((st.updateOrder { order.mark_completed now with
                  stripe_payment_intent_id := payment_intent }).clearCartOf
                uid).itemsOfOrder order.id)
           else st) := rfl

theorem stripe_webhook_completed_unfold (st : State) (sid : String)
    (payment_intent : Option String) (now : Nat) :
    stripe_webhook st (StripeEvent.sessionCompleted sid payment_intent) now
      = (match st.orders.find? (fun o => o.stripe_session_id == some sid) with
         | none => st
         | some o =>
           if o.status == OStatus.pending then
             st.updateOrder { o.mark_completed now with
                              stripe_payment_intent_id := payment_intent }
           else st) := rfl

theorem find?_session_strong (st : State) (uid : Nat) (sid : String) (order : Order)
    (h : st.orders.find? (fun o => o.stripe_session_id == some sid) = some order)
    (huser : order.userId = uid) :
    st.orders.find? (fun o => o.stripe_session_id == some sid && o.userId == uid)
      = some order := by
  apply find?_stronger h
  · have hw := List.find?_some h
    simp only [Bool.and_eq_true]
    exact ⟨hw, by simp [huser]⟩
  · intro x hx
    simp only [Bool.and_eq_true] at hx
    exact hx.1

theorem checkout_success_completes (st : State) (uid : Nat) (sid : String)
    (payment_intent : Option String) (now : Nat) (order : Order)
    (hstrong : st.orders.find? (fun o =>
        o.stripe_session_id == some sid && o.userId == uid) = some order)
    (hpending : order.status = OStatus.pending) :
    checkout_success st uid (some sid) "paid" payment_intent now
      = ((st.updateOrder { order.mark_completed now with
            stripe_payment_intent_id := payment_intent }).clearCartOf
          uid).incrementPurchases
          (((st.updateOrder { order.mark_completed now with
            stripe_payment_intent_id := payment_intent }).clearCartOf
          uid).itemsOfOrder order.id) := by
  rw [checkout_success_paid_unfold, hstrong]
  simp [hpending]

theorem stripe_webhook_completes (st : State) (sid : String)
    (payment_intent : Option String) (now : Nat) (order : Order)
    (h : st.orders.find? (fun o => o.stripe_session_id == some sid) = some order)
    (hpending : order.status = OStatus.pending) :
    stripe_webhook st (StripeEvent.sessionCompleted sid payment_intent) now
      = st.updateOrder { order.mark_completed now with
                         stripe_payment_intent_id := payment_intent } := by
  rw [stripe_webhook_completed_unfold, h]
  simp [hpending]

theorem deliverSuccess_noop (d : Delivery) (st : State) (uid : Nat) (sid : String)
    (payment_intent : Option String) (now : Nat) (order : Order)
    (h : st.orders.find? (fun o => o.stripe_session_id == some sid) = some order)
    (huser : order.userId = uid)
    (hnp : ¬ order.status = OStatus.pending) :
    deliverSuccess d st uid sid payment_intent now = st := by
  cases d with
  | redirect =>
    show checkout_success st uid (some sid) "paid" payment_intent now = st
    rw [checkout_success_paid_unfold, find?_session_strong st uid sid order h huser]
    simp [hnp]
  | webhook =>
    show stripe_webhook st (StripeEvent.sessionCompleted sid payment_intent) now = st
    rw [stripe_webhook_completed_unfold, h]
    simp [hnp]

theorem deliverSuccess_completes_find (d : Delivery) (st : State) (uid : Nat)
    (sid : String) (payment_intent : Option String) (now : Nat) (order : Order)
    (h : st.orders.find? (fun o => o.stripe_session_id == some sid) = some order)
    (huser : order.userId = uid)
    (hpending : order.status = OStatus.pending) :
    (deliverSuccess d st uid sid payment_intent now).orders.find?
        (fun o => o.stripe_session_id == some sid)
      = some { order.mark_completed now with
               stripe_payment_intent_id := payment_intent } := by
  have hw0 := List.find?_some h
  have hw : (order.stripe_session_id == some sid) = true := hw0
  have horder' : (({ order.mark_completed now with
      stripe_payment_intent_id := payment_intent } : Order).stripe_session_id
        == some sid) = true := hw
  cases d with
  | redirect =>
    show (checkout_success st uid (some sid) "paid" payment_intent now).orders.find? _ = _
    rw [checkout_success_completes st uid sid payment_intent now order
      (find?_session_strong st uid sid order h huser) hpending]
    rw [incrementPurchases_orders]
    exact find?_updateOrder_eq { order.mark_completed now with
      stripe_payment_intent_id := payment_intent } h rfl horder'
  | webhook =>
    show (stripe_webhook st (StripeEvent.sessionCompleted sid payment_intent)
        now).orders.find? _ = _
    rw [stripe_webhook_completes st sid payment_intent now order h hpending]
    exact find?_updateOrder_eq { order.mark_completed now with
      stripe_payment_intent_id := payment_intent } h rfl horder'

theorem flatMap_congr_mem {α β : Type} (l : List α) (f g : α → List β)
    (h : ∀ a ∈ l, f a = g a) : l.flatMap f = l.flatMap g := by
  induction l with
  | nil => rfl
  | cons x xs ih =>
    rw [List.flatMap_cons, List.flatMap_cons, h x (List.mem_cons_self x xs),
      ih (fun a ha => h a (List.mem_cons_of_mem x ha))]

theorem get_descendants_succ (cats : List Category) (fuel : Nat) (c : Category) :
    get_descendants cats (fuel + 1) c
      = (childrenOf cats c.id).flatMap
          (fun child => child :: get_descendants cats fuel child) := rfl

theorem mem_childrenOf {cats : List Category} {i : Nat} {ch : Category} :
    ch ∈ childrenOf cats i ↔ ch ∈ cats ∧ ch.parent = some i := by
  unfold childrenOf
  rw [List.mem_filter]
  simp only [beq_iff_eq]

theorem childrenOf_eq_nil {cats : List Category} {rank : Nat → Nat}
    (hbound : ∀ c ∈ cats, rank c.id < cats.length)
    (hmono : ∀ c ∈ cats, ∀ p, c.parent = some p → rank p < rank c.id)
    {x : Category} (hx : cats.length ≤ rank x.id + 1) :
    childrenOf cats x.id = [] := by
  unfold childrenOf
  rw [List.filter_eq_nil_iff]
  intro ch hch hpar
  rw [beq_iff_eq] at hpar
  have h1 := hmono ch hch x.id hpar
  have h2 := hbound ch hch
  omega

theorem get_descendants_stable {cats : List Category} {rank : Nat → Nat}
    (hbound : ∀ c ∈ cats, rank c.id < cats.length)
    (hmono : ∀ c ∈ cats, ∀ p, c.parent = some p → rank p < rank c.id) :
    ∀ (m : Nat) (x : Category), cats.length - rank x.id ≤ m →
      ∀ f1 f2, cats.length ≤ rank x.id + f1 + 1 → cats.length ≤ rank x.id + f2 + 1 →
        get_descendants cats f1 x = get_descendants cats f2 x := by
  intro m
  induction m with
  | zero =>
    intro x hm f1 f2 h1 h2
    have hnil := childrenOf_eq_nil hbound hmono
      (show cats.length ≤ rank x.id + 1 by omega)
    cases f1 with
    | zero =>
      cases f2 with
      | zero => rfl
      | succ b => rw [get_descendants_succ, hnil]; rfl
    | succ a =>
      cases f2 with
      | zero => rw [get_descendants_succ, hnil]; rfl
      | succ b => rw [get_descendants_succ, get_descendants_succ, hnil]; rfl
  | succ k ih =>
    intro x hm f1 f2 h1 h2
    cases f1 with
    | zero =>
      have hnil := childrenOf_eq_nil hbound hmono
        (show cats.length ≤ rank x.id + 1 by omega)
      cases f2 with
      | zero => rfl
      | succ b => rw [get_descendants_succ, hnil]; rfl
    | succ a =>
      cases f2 with
      | zero =>
        have hnil := childrenOf_eq_nil hbound hmono
          (show cats.length ≤ rank x.id + 1 by omega)
        rw [get_descendants_succ, hnil]; rfl
      | succ b =>
        rw [get_descendants_succ, get_descendants_succ]
        apply flatMap_congr_mem
        intro ch hch
        rw [mem_childrenOf] at hch
        have hlt := hmono ch hch.1 x.id hch.2
        have hb := hbound ch hch.1
        have hrec : get_descendants cats a ch = get_descendants cats b ch := by
          apply ih ch ?_ a b ?_ ?_ <;> omega
        rw [hrec]

theorem descendant_of_mem_get_descendants {cats : List Category} :
    ∀ (fuel : Nat) (x d : Category),
      d ∈ get_descendants cats fuel x → Descendant cats x.id d := by
  intro fuel
  induction fuel with
  | zero =>
    intro x d hd
    simp [get_descendants] at hd
  | succ f ih =>
    intro x d hd
    rw [get_descendants_succ, List.mem_flatMap] at hd
    obtain ⟨ch, hch, hmem⟩ := hd
    rw [mem_childrenOf] at hch
    rcases List.mem_cons.mp hmem with rfl | hrec
    · exact Descendant.child hch.1 hch.2
    · exact Descendant.step hch.1 hch.2 (ih ch d hrec)

theorem mem_get_descendants_of_descendant {cats : List Category} {rank : Nat → Nat}
    (hbound : ∀ c ∈ cats, rank c.id < cats.length)
    (hmono : ∀ c ∈ cats, ∀ p, c.parent = some p → rank p < rank c.id)
    {a : Nat} {d : Category} (hd : Descendant cats a d) :
    ∀ (x : Category) (fuel : Nat), x.id = a → cats.length ≤ rank a + fuel →
      d ∈ get_descendants cats fuel x := by
  induction hd with
  | child hmem hpar =>
    rename_i a' d'
    intro x fuel hxa hfuel
    have h1 := hmono d' hmem a' hpar
    have h2 := hbound d' hmem
    obtain ⟨f, rfl⟩ : ∃ f, fuel = f + 1 := ⟨fuel - 1, by omega⟩
    rw [get_descendants_succ, List.mem_flatMap]
    refine ⟨d', ?_, List.mem_cons_self _ _⟩
    rw [mem_childrenOf]
    exact ⟨hmem, by rw [hxa]; exact hpar⟩
  | step hchmem hchpar hsub ih =>
    rename_i a' ch d'
    intro x fuel hxa hfuel
    have h1 := hmono ch hchmem a' hchpar
    have h2 := hbound ch hchmem
    obtain ⟨f, rfl⟩ : ∃ f, fuel = f + 1 := ⟨fuel - 1, by omega⟩
    rw [get_descendants_succ, List.mem_flatMap]
    refine ⟨ch, ?_, List.mem_cons_of_mem _ (ih ch f rfl (by omega))⟩
    rw [mem_childrenOf]
    exact ⟨hchmem, by rw [hxa]; exact hchpar⟩

theorem rank_lt_of_descendant {cats : List Category} {rank : Nat → Nat}
    (hmono : ∀ c ∈ cats, ∀ p, c.parent = some p → rank p < rank c.id)
    {a : Nat} {d : Category} (hd : Descendant cats a d) :
    rank a < rank d.id := by
  induction hd with
  | child hmem hpar =>
    rename_i a' d'
    exact hmono d' hmem a' hpar
  | step hchmem hchpar hsub ih =>
    rename_i a' ch d'
    exact lt_trans (hmono ch hchmem a' hchpar) ih

theorem descendant_inv_bottom {cats : List Category} {a : Nat} {d : Category}
    (hd : Descendant cats a d) :
    (d ∈ cats ∧ d.parent = some a) ∨
      ∃ m, m ∈ cats ∧ Descendant cats a m ∧ d ∈ cats ∧ d.parent = some m.id := by
  induction hd with
  | child hmem hpar => exact Or.inl ⟨hmem, hpar⟩
  | step hchmem hchpar hsub ih =>
    rename_i a' ch d'
    rcases ih with ⟨hdmem, hdpar⟩ | ⟨m, hmmem, hDm, hdmem, hdpar⟩
    · exact Or.inr ⟨ch, hchmem, Descendant.child hchmem hchpar, hdmem, hdpar⟩
    · exact Or.inr ⟨m, hmmem, Descendant.step hchmem hchpar hDm, hdmem, hdpar⟩

theorem sibling_not_descendant {cats : List Category} {rank : Nat → Nat}
    (hmono : ∀ c ∈ cats, ∀ p, c.parent = some p → rank p < rank c.id)
    {i : Nat} {ch1 ch2 : Category}
    (h1 : ch1 ∈ cats) (hp1 : ch1.parent = some i)
    (h2 : ch2 ∈ cats) (hp2 : ch2.parent = some i)
    (hd : Descendant cats ch2.id ch1) : False := by
  rcases descendant_inv_bottom hd with ⟨_, hpar⟩ | ⟨m, hmmem, hDm, _, hpar⟩
  · rw [hp1] at hpar
    injection hpar with hi
    have hr := hmono ch2 h2 i hp2
    rw [hi] at hr
    exact lt_irrefl _ hr
  · rw [hp1] at hpar
    injection hpar with hi
    have hr1 := rank_lt_of_descendant hmono hDm
    have hr2 := hmono ch2 h2 i hp2
    rw [hi] at hr2
    omega

theorem unique_child_of {cats : List Category} {rank : Nat → Nat}
    (hmono : ∀ c ∈ cats, ∀ p, c.parent = some p → rank p < rank c.id)
    (hids : (cats.map Category.id).Nodup) :
    ∀ (n : Nat) (d : Category), rank d.id < n →
      ∀ (i : Nat) (ch1 ch2 : Category), ch1 ∈ cats → ch2 ∈ cats →
        ch1.parent = some i → ch2.parent = some i →
        (d = ch1 ∨ Descendant cats ch1.id d) →
        (d = ch2 ∨ Descendant cats ch2.id d) → ch1 = ch2 := by
  intro n
  induction n with
  | zero =>
    intro d hdn
    exact absurd hdn (Nat.not_lt_zero _)
  | succ k ih =>
    intro d hdn i ch1 ch2 hm1 hm2 hp1 hp2 hd1 hd2
    rcases hd1 with rfl | hD1
    · rcases hd2 with rfl | hD2
      · rfl
      · exact (sibling_not_descendant hmono hm1 hp1 hm2 hp2 hD2).elim
    · rcases hd2 with rfl | hD2
      · exact (sibling_not_descendant hmono hm2 hp2 hm1 hp1 hD1).elim
      · rcases descendant_inv_bottom hD1 with ⟨hdm, hpar1⟩ | ⟨m1, hm1m, hDm1, hdm, hpar1⟩
        · rcases descendant_inv_bottom hD2 with ⟨_, hpar2⟩ | ⟨m2, hm2m, hDm2, _, hpar2⟩
          · rw [hpar1] at hpar2
            injection hpar2 with hid
            exact List.inj_on_of_nodup_map hids hm1 hm2 hid
          · rw [hpar1] at hpar2
            injection hpar2 with hid
            have hceq : ch1 = m2 := List.inj_on_of_nodup_map hids hm1 hm2m hid
            rw [← hceq] at hDm2
            exact (sibling_not_descendant hmono hm1 hp1 hm2 hp2 hDm2).elim
        · rcases descendant_inv_bottom hD2 with ⟨_, hpar2⟩ | ⟨m2, hm2m, hDm2, _, hpar2⟩
          · rw [hpar1] at hpar2
            injection hpar2 with hid
            have hceq : m1 = ch2 := List.inj_on_of_nodup_map hids hm1m hm2 hid
            rw [hceq] at hDm1
            exact (sibling_not_descendant hmono hm2 hp2 hm1 hp1 hDm1).elim
          · rw [hpar1] at hpar2
            injection hpar2 with hid
            have hmeq : m1 = m2 := List.inj_on_of_nodup_map hids hm1m hm2m hid
            rw [← hmeq] at hDm2
            have hrm := hmono d hdm m1.id hpar1
            exact ih m1 (by omega) i ch1 ch2 hm1 hm2 hp1 hp2
              (Or.inr hDm1) (Or.inr hDm2)

theorem get_descendants_nodup {cats : List Category} {rank : Nat → Nat}
    (hmono : ∀ c ∈ cats, ∀ p, c.parent = some p → rank p < rank c.id)
    (hids : (cats.map Category.id).Nodup) :
    ∀ (fuel : Nat) (x : Category), (get_descendants cats fuel x).Nodup := by
  intro fuel
  induction fuel with
  | zero => intro x; exact List.nodup_nil
  | succ f ih =>
    intro x
    rw [get_descendants_succ, List.nodup_flatMap]
    constructor
    · intro ch hch
      rw [mem_childrenOf] at hch
      rw [List.nodup_cons]
      refine ⟨?_, ih ch⟩
      intro hmem
      have hD := descendant_of_mem_get_descendants f ch ch hmem
      have := rank_lt_of_descendant hmono hD
      omega
    · apply List.Nodup.pairwise_of_forall_ne
      · exact List.Nodup.filter _ (List.Nodup.of_map Category.id hids)
      · intro ch1 hch1 ch2 hch2 hne
        intro d hd1 hd2
        rw [mem_childrenOf] at hch1 hch2
        have hDOS1 : d = ch1 ∨ Descendant cats ch1.id d := by
          rcases List.mem_cons.mp hd1 with rfl | hmem
          · exact Or.inl rfl
          · exact Or.inr (descendant_of_mem_get_descendants f ch1 d hmem)
        have hDOS2 : d = ch2 ∨ Descendant cats ch2.id d := by
          rcases List.mem_cons.mp hd2 with rfl | hmem
          · exact Or.inl rfl
          · exact Or.inr (descendant_of_mem_get_descendants f ch2 d hmem)
        exact hne (unique_child_of hmono hids (rank d.id + 1) d (by omega)
          x.id ch1 ch2 hch1.1 hch2.1 hch1.2 hch2.2 hDOS1 hDOS2)

/-! ## Claim theorems -/

/-- C7: adding the same product to a cart twice results in exactly one
line item for that `(cart, product)` pair — the second add (even through
a product row whose live price has changed meanwhile) is a no-op that
creates no duplicate line and keeps the price captured by the first
add. -/
theorem cart_add_product_idempotent (c : Cart) (p q : Product) (hid : q.id = p.id)
    (h0 : ∀ it ∈ c.items, it.productId ≠ p.id) :
    (c.add_product p).add_product q = c.add_product p ∧
    ((c.add_product p).add_product q).items.countP (fun it => it.productId == p.id) = 1 ∧
    ((c.add_product p).add_product q).items.filter (fun it => it.productId == p.id)
      = [{ productId := p.id, price := p.price }] := by
  have hany : c.items.any (fun it => it.productId == p.id) = false := by
    simp only [List.any_eq_false, beq_iff_eq]
    intro it hit
    exact h0 it hit
  have h1 : c.add_product p
      = { c with items := c.items ++ [{ productId := p.id, price := p.price }] } := by
    unfold Cart.add_product
    rw [hany]
    rfl
  have h2 : (c.add_product p).add_product q = c.add_product p := by
    rw [h1]
    unfold Cart.add_product
    simp [hid]
  refine ⟨h2, ?_, ?_⟩
  · rw [h2, h1]
    simp only [List.countP_append]
    have : c.items.countP (fun it => it.productId == p.id) = 0 := by
      simp only [List.countP_eq_zero, beq_iff_eq]
      intro it hit
      exact h0 it hit
    rw [this]
    simp [List.countP_cons]
  · rw [h2, h1]
    simp only [List.filter_append]
    have : c.items.filter (fun it => it.productId == p.id) = [] := by
      simp only [List.filter_eq_nil_iff, beq_iff_eq]
      intro it hit
      exact h0 it hit
    simp [this]

theorem cart_add_product_idempotent_witness :
    ((3 : Nat) = 3 ∧ ∀ it ∈ ([] : List CartItem), it.productId ≠ 3) ∧
    (let c : Cart := { userId := 1, items := [] }
     let p : Product := { id := 3, slug := "tpl", title := "Template", price := 1000,
                          status := PStatus.active, is_active := true,
                          purchase_count := 0, download_count := 0 }
     let q : Product := { p with price := 2500 }
     (c.add_product p).add_product q = c.add_product p ∧
     ((c.add_product p).add_product q).items.countP (fun it => it.productId == p.id) = 1 ∧
     ((c.add_product p).add_product q).items.filter (fun it => it.productId == p.id)
       = [{ productId := p.id, price := p.price }]) := by
  refine ⟨⟨rfl, by simp⟩, ?_⟩
  exact cart_add_product_idempotent
    { userId := 1, items := [] }
    { id := 3, slug := "tpl", title := "Template", price := 1000,
      status := PStatus.active, is_active := true,
      purchase_count := 0, download_count := 0 }
    { id := 3, slug := "tpl", title := "Template", price := 2500,
      status := PStatus.active, is_active := true,
      purchase_count := 0, download_count := 0 }
    rfl (by simp)

/-- C8: the cart total is the sum of the per-line prices captured at add
time, and saving any later edit of a live product row (for instance a
price change) leaves the stored cart — and hence its total — unchanged. -/
theorem cart_total_captured (st : State) (uid : Nat) (c : Cart) (p : Product)
    (hc : st.cartOf uid = some c) :
    c.total_price = (c.items.map CartItem.price).sum ∧
    (st.updateProduct p).cartOf uid = some c ∧
    ((st.updateProduct p).cartOf uid).map Cart.total_price = some c.total_price := by
  refine ⟨total_price_eq_sum c, ?_, ?_⟩
  · exact hc
  · rw [show (st.updateProduct p).cartOf uid = st.cartOf uid from rfl, hc]
    rfl

/-- C5: a webhook-reported payment failure for a pending order sets that
order's status to `failed`, leaves every cart untouched, and changes no
product (in particular no purchase counter). -/
theorem webhook_failure_pending_order (st : State) (order : Order) (piid : String) (now : Nat)
    (h1 : st.orders.find? (fun o => o.stripe_payment_intent_id == some piid) = some order)
    (h2 : order.status = OStatus.pending) :
    stripe_webhook st (StripeEvent.paymentFailed piid) now
      = st.updateOrder { order with status := OStatus.failed } ∧
    { order with status := OStatus.failed }
      ∈ (stripe_webhook st (StripeEvent.paymentFailed piid) now).orders ∧
    (stripe_webhook st (StripeEvent.paymentFailed piid) now).carts = st.carts ∧
    (stripe_webhook st (StripeEvent.paymentFailed piid) now).products = st.products := by
  have e : stripe_webhook st (StripeEvent.paymentFailed piid) now
      = st.updateOrder { order with status := OStatus.failed } := by
    have estep : stripe_webhook st (StripeEvent.paymentFailed piid) now
        = (match st.orders.find? (fun o => o.stripe_payment_intent_id == some piid) with
           | none => st
           | some o => st.updateOrder { o with status := OStatus.failed }) := rfl
    rw [estep, h1]
  refine ⟨e, ?_, by rw [e]; rfl, by rw [e]; rfl⟩
  rw [e]
  have hmem : order ∈ st.orders := List.mem_of_find?_eq_some h1
  have := List.mem_map_of_mem
    (fun x => if x.id == ({ order with status := OStatus.failed } : Order).id
              then ({ order with status := OStatus.failed } : Order) else x) hmem
  simpa [State.updateOrder] using this

theorem webhook_failure_pending_order_witness :
    (let o : Order := { id := 1, userId := 1, email := "b@x.com", total_amount := 1000,
                        status := OStatus.pending,
                        stripe_payment_intent_id := some "pi_1",
                        stripe_session_id := some "cs_1", completed_at := none }
     let ct : Cart := { userId := 1, items := [{ productId := 3, price := 1000 }] }
     let st : State := { products := [], carts := [ct], orders := [o], orderItems := [] }
     stripe_webhook st (StripeEvent.paymentFailed "pi_1") 9
       = st.updateOrder { o with status := OStatus.failed } ∧
     { o with status := OStatus.failed }
       ∈ (stripe_webhook st (StripeEvent.paymentFailed "pi_1") 9).orders ∧
     (stripe_webhook st (StripeEvent.paymentFailed "pi_1") 9).carts = st.carts ∧
     (stripe_webhook st (StripeEvent.paymentFailed "pi_1") 9).products = st.products) := by
  exact webhook_failure_pending_order _ _ _ 9 (by decide) (by decide)

/-- C4: contradicted by the code — the `payment_intent.payment_failed`
branch of `stripe_webhook` has no status guard (unlike its
`checkout.session.completed` branch) and overwrites a `completed`
(terminal) order with `failed`, a transition between two distinct
terminal states.  Since `stripe_payment_intent_id` is only ever stored
at completion time, exactly such orders are the ones this branch can
find. -/
theorem webhook_overwrites_terminal_status :
    (let o : Order := { id := 1, userId := 1, email := "b@x.com", total_amount := 1000,
                        status := OStatus.completed,
                        stripe_payment_intent_id := some "pi_1",
                        stripe_session_id := some "cs_1", completed_at := some 5 }
     let st : State := { products := [], carts := [], orders := [o], orderItems := [] }
     o.status = OStatus.completed ∧
     (stripe_webhook st (StripeEvent.paymentFailed "pi_1") 9).orders
       = [{ o with status := OStatus.failed }]) := by
  exact ⟨rfl, rfl⟩

/-- C9: contradicted by the code — the snapshot fields do survive edits of
the live product, but `OrderItem.product` is declared
`on_delete=models.CASCADE`, so deleting the product deletes the order
item row itself (despite the source comment "in case product gets
deleted/modified"). -/
theorem orderitem_cascade_on_product_delete :
    (let p : Product := { id := 3, slug := "tpl", title := "Template", price := 1000,
                          status := PStatus.active, is_active := true,
                          purchase_count := 0, download_count := 0 }
     let it : OrderItem := { orderId := 10, productId := 3, price := 1000,
                             product_title := "Template", product_slug := "tpl" }
     let st : State := { products := [p], carts := [], orders := [], orderItems := [it] }
     (st.updateProduct { p with title := "Renamed", price := 2500 }).itemsOfOrder 10
       = [it] ∧
     (st.deleteProduct 3).itemsOfOrder 10 = []) := by
  exact ⟨rfl, rfl⟩

/-- C3 counterexample: with a one-item cart and a failing Stripe call,
`create_checkout_session` answers the generic failure but a new pending
`Order` row and its `OrderItem` row are left behind, against the claim
that no order rows created by the request exist afterwards. -/
theorem session_failure_leaves_order_rows :
    (create_checkout_session stShop 1 "b@x.com" 7 none).2 = SessionResponse.failed ∧
    stShop.orders = [] ∧ stShop.orderItems = [] ∧
    (create_checkout_session stShop 1 "b@x.com" 7 none).1.orders
      = [orderCreate 7 1 "b@x.com" 1000] ∧
    (create_checkout_session stShop 1 "b@x.com" 7 none).1.orderItems
      = [snapshotItem stShop 7 { productId := 3, price := 1000 }] := by
  exact ⟨rfl, rfl, rfl, rfl, rfl⟩

/-- C3 amended: when the payment-provider call fails during session
creation (in `create_checkout_session` or in `buy_now`), the caller gets
a generic retryable failure and the cart and products are untouched —
but the pending `Order` and its `OrderItem` rows, created before the
provider call, persist (with no session id stored). -/
theorem session_failure_effects (st : State) (uid : Nat) (email : String)
    (oid : Nat) (cart : Cart) (slug : String) (product : Product) (oid2 : Nat)
    (hc : st.cartOf uid = some cart) (hne : cart.is_empty = false)
    (hp : purchasable_lookup st slug = some product) :
    (create_checkout_session st uid email oid none).2 = SessionResponse.failed ∧
    (create_checkout_session st uid email oid none).1.carts = st.carts ∧
    (create_checkout_session st uid email oid none).1.products = st.products ∧
    (create_checkout_session st uid email oid none).1.orders
      = st.orders ++ [orderCreate oid uid email cart.total_price] ∧
    (create_checkout_session st uid email oid none).1.orderItems
      = st.orderItems ++ cart.items.map (snapshotItem st oid) ∧
    (buy_now st uid email slug oid2 none).2 = false ∧
    (buy_now st uid email slug oid2 none).1.carts = st.carts ∧
    (buy_now st uid email slug oid2 none).1.products = st.products ∧
    (buy_now st uid email slug oid2 none).1.orders
      = st.orders ++ [orderCreate oid2 uid email product.price] ∧
    (buy_now st uid email slug oid2 none).1.orderItems
      = st.orderItems ++ [buyNowItem oid2 product] := by
  have e1 : create_checkout_session st uid email oid none
      = ({ st with orders := st.orders ++ [orderCreate oid uid email cart.total_price],
                   orderItems := st.orderItems ++ cart.items.map (snapshotItem st oid) },
         SessionResponse.failed) := by
    have estep : create_checkout_session st uid email oid none
        = (match st.cartOf uid with
           | none => (st, SessionResponse.failed)
           | some c =>
             if c.is_empty then (st, SessionResponse.cartEmpty)
             else
               ({ st with orders := st.orders ++ [orderCreate oid uid email c.total_price],
                          orderItems := st.orderItems ++ c.items.map (snapshotItem st oid) },
                SessionResponse.failed)) := rfl
    rw [estep, hc]
    simp [hne]
  have e2 : buy_now st uid email slug oid2 none
      = ({ st with orders := st.orders ++ [orderCreate oid2 uid email product.price],
                   orderItems := st.orderItems ++ [buyNowItem oid2 product] },
         false) := by
    have estep : buy_now st uid email slug oid2 none
        = (match purchasable_lookup st slug with
           | none => (st, false)
           | some pr =>
             ({ st with orders := st.orders ++ [orderCreate oid2 uid email pr.price],
                        orderItems := st.orderItems ++ [buyNowItem oid2 pr] },
              false)) := rfl
    rw [estep, hp]
  rw [e1, e2]
  exact ⟨rfl, rfl, rfl, rfl, rfl, rfl, rfl, rfl, rfl, rfl⟩

theorem session_failure_effects_witness :
    (create_checkout_session stShop 1 "b@x.com" 7 none).2 = SessionResponse.failed ∧
    (create_checkout_session stShop 1 "b@x.com" 7 none).1.carts = stShop.carts ∧
    (create_checkout_session stShop 1 "b@x.com" 7 none).1.products = stShop.products ∧
    (create_checkout_session stShop 1 "b@x.com" 7 none).1.orders
      = stShop.orders ++ [orderCreate 7 1 "b@x.com" cartWithTpl.total_price] ∧
    (create_checkout_session stShop 1 "b@x.com" 7 none).1.orderItems
      = stShop.orderItems ++ cartWithTpl.items.map (snapshotItem stShop 7) ∧
    (buy_now stShop 1 "b@x.com" "tpl" 8 none).2 = false ∧
    (buy_now stShop 1 "b@x.com" "tpl" 8 none).1.carts = stShop.carts ∧
    (buy_now stShop 1 "b@x.com" "tpl" 8 none).1.products = stShop.products ∧
    (buy_now stShop 1 "b@x.com" "tpl" 8 none).1.orders
      = stShop.orders ++ [orderCreate 8 1 "b@x.com" tplActive.price] ∧
    (buy_now stShop 1 "b@x.com" "tpl" 8 none).1.orderItems
      = stShop.orderItems ++ [buyNowItem 8 tplActive] := by
  exact session_failure_effects stShop 1 "b@x.com" 7 cartWithTpl "tpl" tplActive 8
    (by decide) (by decide) (by decide)

/-- C6 counterexample: a product with `status='draft'` but
`is_active=True` is invisible to `product_detail`, yet `add_to_cart`
locates it and puts it in the cart, and `buy_now` locates it and creates
a pending order for it — against the claim that every purchase path
fails to locate a product that is not `active + is_active`. -/
theorem draft_product_enters_purchase_path :
    product_detail stDraftShop "tpl" = none ∧
    purchasable_lookup stDraftShop "tpl" = some tplDraft ∧
    (add_to_cart stDraftShop 1 "tpl").2 = true ∧
    (add_to_cart stDraftShop 1 "tpl").1.cartOf 1
      = some { userId := 1, items := [{ productId := 3, price := 1000 }] } ∧
    (buy_now stDraftShop 1 "b@x.com" "tpl" 7 (some ("cs_1", "u"))).2 = true ∧
    (buy_now stDraftShop 1 "b@x.com" "tpl" 7 (some ("cs_1", "u"))).1.orders.length
      = 1 := by
  exact ⟨rfl, rfl, rfl, by decide, rfl, rfl⟩

/-- C6 amended: `product_detail` requires both `status='active'` and
`is_active`, while `add_to_cart` and `buy_now` share a lookup that
requires only `is_active=True` — any `is_active` product is accepted into
the purchase path regardless of its `status`. -/
theorem purchase_visibility_guards (st : State) (slug : String) (p q : Product)
    (hd : product_detail st slug = some p)
    (hq : purchasable_lookup st slug = some q) :
    (p.slug = slug ∧ p.is_active = true ∧ p.status = PStatus.active) ∧
    (q.slug = slug ∧ q.is_active = true) := by
  unfold product_detail at hd
  unfold purchasable_lookup at hq
  have h1 := List.find?_some hd
  have h2 := List.find?_some hq
  simp only [Bool.and_eq_true, beq_iff_eq] at h1 h2
  exact ⟨⟨h1.1.1, h1.1.2, h1.2⟩, h2.1, h2.2⟩

/-- C1 counterexample: a confirmed-payment notification arriving through
the asynchronous webhook for a pending order completes the order but
leaves the originating user's (non-empty) cart untouched and every
purchase counter unchanged — the webhook entry point performs none of
the cart/counter side effects the claim attributes to both entry
points. -/
theorem webhook_completion_skips_side_effects :
    pendingOrder.status = OStatus.pending ∧
    (stripe_webhook stCheckout
        (StripeEvent.sessionCompleted "cs_1" (some "pi_9")) 77).orders
      = [completedWith pendingOrder (some "pi_9") 77] ∧
    (stripe_webhook stCheckout
        (StripeEvent.sessionCompleted "cs_1" (some "pi_9")) 77).carts
      = [cartWithTpl] ∧
    cartWithTpl.is_empty = false ∧
    (stripe_webhook stCheckout
        (StripeEvent.sessionCompleted "cs_1" (some "pi_9")) 77).products
      = [tplActive] ∧
    tplActive.purchase_count = 0 := by
  exact ⟨rfl, rfl, rfl, rfl, rfl, rfl⟩

/-- C1 amended: for a pending order, a confirmed payment through the
synchronous redirect callback marks the order completed, records the
completion time, stores the payment intent, clears the originating
user's cart, and adds one to the purchase counter of every product for
each of the order's items; through the asynchronous webhook it marks the
order completed and records the completion time, but clears no cart and
changes no product. -/
theorem payment_success_entry_points (st : State) (uid : Nat) (sid : String)
    (payment_intent : Option String) (now : Nat) (order : Order)
    (h : st.orders.find? (fun o => o.stripe_session_id == some sid) = some order)
    (huser : order.userId = uid)
    (hpending : order.status = OStatus.pending) :
    (checkout_success st uid (some sid) "paid" payment_intent now).orders.find?
        (fun o => o.stripe_session_id == some sid)
      = some (completedWith order payment_intent now) ∧
    (checkout_success st uid (some sid) "paid" payment_intent now).cartOf uid
      = (st.cartOf uid).map Cart.clear ∧
    (checkout_success st uid (some sid) "paid" payment_intent now).products
      = st.products.map (fun p =>
          { p with purchase_count := p.purchase_count
              + (st.itemsOfOrder order.id).countP (fun it => it.productId == p.id) }) ∧
    (stripe_webhook st (StripeEvent.sessionCompleted sid payment_intent)
        now).orders.find? (fun o => o.stripe_session_id == some sid)
      = some (completedWith order payment_intent now) ∧
    (stripe_webhook st (StripeEvent.sessionCompleted sid payment_intent) now).carts
      = st.carts ∧
    (stripe_webhook st (StripeEvent.sessionCompleted sid payment_intent) now).products
      = st.products := by
  have hstrong := find?_session_strong st uid sid order h huser
  have ered := checkout_success_completes st uid sid payment_intent now order
    hstrong hpending
  have ewh := stripe_webhook_completes st sid payment_intent now order h hpending
  have hfr := deliverSuccess_completes_find Delivery.redirect st uid sid
    payment_intent now order h huser hpending
  have hfw := deliverSuccess_completes_find Delivery.webhook st uid sid
    payment_intent now order h huser hpending
  refine ⟨hfr, ?_, ?_, hfw, ?_, ?_⟩
  · rw [ered]
    show (((st.updateOrder _).clearCartOf uid).incrementPurchases _).carts.find? _
      = _
    rw [incrementPurchases_carts]
    exact find?_map_clear st.carts uid
  · rw [ered, incrementPurchases_products]
    rfl
  · rw [ewh]
    rfl
  · rw [ewh]
    rfl

theorem payment_success_entry_points_witness :
    (checkout_success stCheckout 1 (some "cs_1") "paid" (some "pi_9") 77).orders.find?
        (fun o => o.stripe_session_id == some "cs_1")
      = some (completedWith pendingOrder (some "pi_9") 77) ∧
    (checkout_success stCheckout 1 (some "cs_1") "paid" (some "pi_9") 77).cartOf 1
      = (stCheckout.cartOf 1).map Cart.clear ∧
    (checkout_success stCheckout 1 (some "cs_1") "paid" (some "pi_9") 77).products
      = stCheckout.products.map (fun p =>
          { p with purchase_count := p.purchase_count
              + (stCheckout.itemsOfOrder pendingOrder.id).countP (fun it => it.productId == p.id) }) ∧
    (stripe_webhook stCheckout (StripeEvent.sessionCompleted "cs_1" (some "pi_9"))
        77).orders.find? (fun o => o.stripe_session_id == some "cs_1")
      = some (completedWith pendingOrder (some "pi_9") 77) ∧
    (stripe_webhook stCheckout (StripeEvent.sessionCompleted "cs_1" (some "pi_9"))
        77).carts = stCheckout.carts ∧
    (stripe_webhook stCheckout (StripeEvent.sessionCompleted "cs_1" (some "pi_9"))
        77).products = stCheckout.products := by
  exact payment_success_entry_points stCheckout 1 "cs_1" (some "pi_9") 77
    pendingOrder (by decide) (by decide) (by decide)

/-- C2 counterexample: delivering "payment succeeded" twice through the
webhook entry point for a pending order performs the completion
side-effect sequence zero times, not exactly once — the cart is never
cleared and no purchase counter moves. -/
theorem double_webhook_no_side_effects :
    pendingOrder.status = OStatus.pending ∧
    cartWithTpl.is_empty = false ∧
    (stripe_webhook (stripe_webhook stCheckout
        (StripeEvent.sessionCompleted "cs_1" (some "pi_9")) 77)
        (StripeEvent.sessionCompleted "cs_1" (some "pi_9")) 78).carts
      = [cartWithTpl] ∧
    (stripe_webhook (stripe_webhook stCheckout
        (StripeEvent.sessionCompleted "cs_1" (some "pi_9")) 77)
        (StripeEvent.sessionCompleted "cs_1" (some "pi_9")) 78).products
      = [tplActive] ∧
    tplActive.purchase_count = 0 := by
  exact ⟨rfl, rfl, rfl, rfl, rfl⟩

/-- C2 amended: the completion side-effect sequence runs at most once —
whatever the first delivery (redirect callback or webhook) did, the
second delivery of a payment success for the same order is a complete
no-op on the state, and is not an error.  (Only a redirect-callback
delivery performs the cart clear and counter increments, so two webhook
deliveries perform them zero times.) -/
theorem second_success_delivery_noop (st : State) (uid : Nat) (sid : String)
    (order : Order) (d1 d2 : Delivery) (pi1 pi2 : Option String) (t1 t2 : Nat)
    (h : st.orders.find? (fun o => o.stripe_session_id == some sid) = some order)
    (huser : order.userId = uid) :
    deliverSuccess d2 (deliverSuccess d1 st uid sid pi1 t1) uid sid pi2 t2
      = deliverSuccess d1 st uid sid pi1 t1 := by
  by_cases hp : order.status = OStatus.pending
  · have hfind := deliverSuccess_completes_find d1 st uid sid pi1 t1 order h huser hp
    exact deliverSuccess_noop d2 _ uid sid pi2 t2 _ hfind huser
      (fun hx => OStatus.noConfusion hx)
  · have e1 := deliverSuccess_noop d1 st uid sid pi1 t1 order h huser hp
    rw [e1]
    exact deliverSuccess_noop d2 st uid sid pi2 t2 order h huser hp

theorem second_success_delivery_noop_witness :
    deliverSuccess Delivery.redirect
        (deliverSuccess Delivery.webhook stCheckout 1 "cs_1" (some "pi_9") 77)
        1 "cs_1" (some "pi_9") 78
      = deliverSuccess Delivery.webhook stCheckout 1 "cs_1" (some "pi_9") 77 := by
  exact second_success_delivery_noop stCheckout 1 "cs_1" pendingOrder
    Delivery.webhook Delivery.redirect (some "pi_9") (some "pi_9") 77 78
    (by decide) (by decide)

/-- C10: under the acyclic-forest precondition (witnessed by a rank
function) and distinct primary keys, `Category.get_descendants`
terminates — the fuel-indexed recursion is stable at any fuel at least
the table size — and returns each strict descendant exactly once (its
result lists exactly the `Descendant`s, without duplicates); and the
only write operation on `Category`, its `save`, performs no check of the
parent link: it preserves `parent` unconditionally, even for a
self-referential row. -/
theorem category_descendants_correct (cats : List Category) (c : Category)
    (fuel : Nat) (d : Category) (slugify : String → String) (c' : Category)
    (hA : AcyclicForest cats) (hids : (cats.map Category.id).Nodup)
    (hfuel : cats.length ≤ fuel) :
    get_descendants cats fuel c = get_descendants cats cats.length c ∧
    (d ∈ get_descendants cats cats.length c ↔ Descendant cats c.id d) ∧
    (get_descendants cats cats.length c).Nodup ∧
    (Category.save slugify c').parent = c'.parent := by
  obtain ⟨rank, hbound, hmono⟩ := hA
  refine ⟨?_, ⟨?_, ?_⟩, ?_, ?_⟩
  · exact get_descendants_stable hbound hmono (cats.length - rank c.id) c le_rfl
      fuel cats.length (by omega) (by omega)
  · exact fun h => descendant_of_mem_get_descendants cats.length c d h
  · exact fun h => mem_get_descendants_of_descendant hbound hmono h c
      cats.length rfl (by omega)
  · exact get_descendants_nodup hmono hids cats.length c
  · unfold Category.save
    split <;> rfl

theorem category_descendants_correct_witness :
    (AcyclicForest catForest ∧ (catForest.map Category.id).Nodup ∧
      catForest.length ≤ 5) ∧
    get_descendants catForest 5 catRoot
      = get_descendants catForest catForest.length catRoot ∧
    (catLeaf ∈ get_descendants catForest catForest.length catRoot ↔
      Descendant catForest catRoot.id catLeaf) ∧
    (get_descendants catForest catForest.length catRoot).Nodup ∧
    (Category.save (fun s => s) catSelfLoop).parent = catSelfLoop.parent := by
  have hA : AcyclicForest catForest := by
    refine ⟨fun i => i, by decide, ?_⟩
    intro x hx p hp
    simp only [catForest, List.mem_cons, List.not_mem_nil, or_false] at hx
    rcases hx with rfl | rfl | rfl <;>
      simp_all [catRoot, catMid, catLeaf] <;> omega
  exact ⟨⟨hA, by decide, by decide⟩,
    category_descendants_correct catForest catRoot 5 catLeaf (fun s => s)
      catSelfLoop hA (by decide) (by decide)⟩

theorem purchase_visibility_guards_witness :
    (tplActive.slug = "tpl" ∧ tplActive.is_active = true ∧
      tplActive.status = PStatus.active) ∧
    (tplActive.slug = "tpl" ∧ tplActive.is_active = true) := by
  exact purchase_visibility_guards stShop "tpl" tplActive tplActive
    (by decide) (by decide)

theorem cart_total_captured_witness :
    (let st : State :=
       { products := [{ id := 3, slug := "tpl", title := "Template", price := 1000,
                        status := PStatus.active, is_active := true,
                        purchase_count := 0, download_count := 0 }],
         carts := [{ userId := 1, items := [{ productId := 3, price := 1000 }] }],
         orders := [], orderItems := [] }
     st.cartOf 1 = some { userId := 1, items := [{ productId := 3, price := 1000 }] }) ∧
    (let st : State :=
       { products := [{ id := 3, slug := "tpl", title := "Template", price := 1000,
                        status := PStatus.active, is_active := true,
                        purchase_count := 0, download_count := 0 }],
         carts := [{ userId := 1, items := [{ productId := 3, price := 1000 }] }],
         orders := [], orderItems := [] }
     let c : Cart := { userId := 1, items := [{ productId := 3, price := 1000 }] }
     let p : Product := { id := 3, slug := "tpl", title := "Template", price := 9999,
                          status := PStatus.active, is_active := true,
                          purchase_count := 0, download_count := 0 }
     c.total_price = (c.items.map CartItem.price).sum ∧
     (st.updateProduct p).cartOf 1 = some c ∧
     ((st.updateProduct p).cartOf 1).map Cart.total_price = some c.total_price) := by
  refine ⟨by decide, ?_⟩
  exact cart_total_captured _ 1 _ _ (by decide)

end DevMarket
